import Mathlib

/-!
Verification of `browser_tab_cleaner.py`.

The Python program is shallowly embedded: each helper function becomes a
Lean definition over `String` (represented through `List Char`), the two
HTTP effects (fetching the tab list, closing a tab) become explicit
parameters and event traces, and Python `dict.get` defaults become
`Option.getD`.  Regular-expression matching (`re.search`) is abstracted
as a compilation oracle `String → Option (String → Bool)` where `none`
models a pattern that raises `re.error` at compile time.
-/

namespace TabCleaner

/-- Boolean test that `p` is a prefix of `l`; models Python `str.startswith`
on the underlying character lists. -/
def isPrefOf : List Char → List Char → Bool
  | [], _ => true
  | _ :: _, [] => false
  | a :: as, b :: bs => a == b && isPrefOf as bs

/-- Boolean test that `pat` occurs contiguously inside `hay`; models the
Python `in` operator on strings. -/
def hasSub (pat : List Char) : List Char → Bool
  | [] => isPrefOf pat []
  | h :: t => isPrefOf pat (h :: t) || hasSub pat t

/-- Python `pat in s` on strings. -/
def pyIn (pat s : String) : Bool := hasSub pat.toList s.toList

/-- Python `s.startswith(pat)`. -/
def pyStarts (s pat : String) : Bool := isPrefOf pat.toList s.toList

/-- Python `s.lower()` (ASCII case mapping, which covers every string the
program compares). -/
def pyLower (s : String) : String := String.mk (s.toList.map Char.toLower)

/-- Python `s.upper()` (ASCII case mapping). -/
def pyUpper (s : String) : String := String.mk (s.toList.map Char.toUpper)

/-- Python `len(s.strip()) == 0`: every character is whitespace. -/
def stripEmpty (s : String) : Bool := s.toList.all Char.isWhitespace

/-- Python `s[:n] + "..." if len(s) > n else s`, used for display truncation. -/
def display (s : String) (n : Nat) : String :=
  if n < s.toList.length then String.mk (s.toList.take n) ++ "..." else s

/-- A character allowed in a URL scheme by `urllib.parse`
(alphanumeric, `+`, `-` or `.`). -/
def validSchemeChar (c : Char) : Bool :=
  c.isAlphanum || c == '+' || c == '-' || c == '.'

/-- Split a character list at the first `':'`, returning the parts before
and after it, or `none` when there is no colon. -/
def splitAtColon : List Char → Option (List Char × List Char)
  | [] => none
  | c :: cs =>
    if c == ':' then some ([], cs)
    else
      match splitAtColon cs with
      | some (a, b) => some (c :: a, b)
      | none => none

/-- The remainder of a URL after stripping a well-formed scheme prefix
(`scheme:`), as `urllib.parse.urlsplit` does; when the part before the
first colon is not a valid scheme the URL is returned unchanged. -/
def restAfterScheme (l : List Char) : List Char :=
  match splitAtColon l with
  | some (sch, rest) =>
    match sch with
    | [] => l
    | c :: cs => if c.isAlpha && (c :: cs).all validSchemeChar then rest else l
  | none => l

/-- Models `urllib.parse.urlparse(url).netloc`: after the scheme, a part
introduced by `//` and delimited by the next `/`, `?` or `#` (empty when
the URL has no `//` authority part). -/
def netlocOf (url : String) : String :=
  match restAfterScheme url.toList with
  | '/' :: '/' :: r =>
    String.mk (r.takeWhile (fun c => !(c == '/' || c == '?' || c == '#')))
  | _ => ""

/-- A tab record from the DevTools `/json` endpoint; every field may be
absent, as in the Python `dict`. -/
structure Tab where
  id : Option String
  url : Option String
  title : Option String
  deriving Repr, DecidableEq

/-- A configured site rule; `Option` fields model `dict.get` defaults
(`enabled` defaults to `true`, `name` to `"Unknown site"`, `match_type`
to `"domain_contains"`). -/
structure SiteRule where
  name : Option String
  patterns : List String
  matchType : Option String
  enabled : Option Bool
  deriving Repr, DecidableEq

/-- The loaded configuration: the `configurable_sites` list. -/
structure Config where
  configurableSites : List SiteRule
  deriving Repr, DecidableEq

/-- A regex compilation oracle: `none` models a pattern on which
`re.compile` raises `re.error`; `some f` models a valid pattern whose
`re.search` against a string `s` succeeds exactly when `f s = true`. -/
abbrev ReOracle : Type := String → Option (String → Bool)

/-- The fixed new-tab / blank URL prefixes of `_is_empty_tab`. -/
def emptyUrls : List String :=
  ["chrome://newtab/", "about:blank", "chrome://new-tab-page/",
   "edge://newtab/", "about:newtab"]

/-- The fixed failure-indicator phrases of `_is_empty_tab`. -/
def errorIndicators : List String :=
  ["This site can\x27t be reached", "Page not found", "Server not found",
   "Connection timed out", "DNS_PROBE_FINISHED", "ERR_", "Cannot connect to",
   "Failed to load", "Untitled"]

/-- Embedding of `_is_empty_tab`: new-tab URL prefix, then case-insensitive
failure indicator in the title, then all-whitespace title. -/
def isEmptyTab (tab : Tab) : Bool × String :=
  let url := tab.url.getD ""
  let title := tab.title.getD ""
  if emptyUrls.any (fun e => pyStarts url e) then
    (true, "New tab page: " ++ url)
  else if errorIndicators.any (fun i => pyIn (pyLower i) (pyLower title)) then
    (true, "Failed load detected: " ++ title)
  else if stripEmpty title then
    (true, "Empty title: " ++ url)
  else
    (false, "")

/-- The fixed CI host-name fragments of `_is_jenkins_tab`. -/
def jenkinsDomains : List String :=
  ["art-jenkins.apps.", "jenkins.", "ci.jenkins.io", "hudson.", "buildbot."]

/-- The console/log URL fragments of `_is_jenkins_tab`. -/
def consoles : List String :=
  ["/console", "/consoleFull", "consoleText", "/log"]

/-- The build-completion keywords of `_is_jenkins_tab`. -/
def completions : List String :=
  ["SUCCESS", "FAILURE", "ABORTED", "UNSTABLE", "COMPLETED"]

/-- Embedding of `_is_jenkins_tab`: a CI-domain fragment in the URL gates
everything; then console/log fragments in the URL, then completion
keywords in the uppercased title, else the generic reason. -/
def isJenkinsTab (tab : Tab) : Bool × String :=
  let url := tab.url.getD ""
  let title := tab.title.getD ""
  if !jenkinsDomains.any (fun d => pyIn d url) then
    (false, "")
  else if consoles.any (fun p => pyIn p url) then
    (true, "Jenkins console log: " ++ url)
  else if completions.any (fun i => pyIn i (pyUpper title)) then
    (true, "Completed Jenkins build: " ++ title)
  else
    (true, "Jenkins page: " ++ url)

/-- One `match_type` dispatch of `_is_configurable_site_tab` for a single
pattern against a URL. -/
def matchPattern (re : ReOracle) (matchType pattern url : String) : Bool :=
  if matchType == "domain_contains" then
    pyIn pattern url
  else if matchType == "domain_exact" then
    pyLower (netlocOf url) == pyLower pattern
  else if matchType == "url_contains" then
    pyIn pattern url
  else if matchType == "url_regex" then
    match re pattern with
    | some f => f url
    | none => false
  else
    false

/-- The inner pattern loop of `_is_configurable_site_tab`: does any
pattern of the rule match the URL? -/
def patMatch (re : ReOracle) (matchType url : String) : List String → Bool
  | [] => false
  | p :: ps => matchPattern re matchType p url || patMatch re matchType url ps

/-- The outer rule loop of `_is_configurable_site_tab`: skip disabled
rules, return at the first rule with a matching pattern. -/
def sitesGo (re : ReOracle) (url : String) : List SiteRule → Bool × String
  | [] => (false, "")
  | s :: rest =>
    if s.enabled.getD true = false then sitesGo re url rest
    else if patMatch re (s.matchType.getD "domain_contains") url s.patterns then
      (true, (s.name.getD "Unknown site") ++ ": " ++ url)
    else sitesGo re url rest

/-- Embedding of `_is_configurable_site_tab`. -/
def isConfigurableSiteTab (re : ReOracle) (tab : Tab) (config : Config) :
    Bool × String :=
  sitesGo re (tab.url.getD "") config.configurableSites

/-- Embedding of `_close_tab`.  `respond tid` models whether the HTTP GET
to the close endpoint returns status 200 (a network exception counts as
`false`).  The first component is the list of close URLs actually
requested; the second is the boolean result. -/
def closeTab (respond : String → Bool) (tab : Tab) (dryRun : Bool) :
    List String × Bool :=
  match tab.id with
  | none => ([], false)
  | some tid =>
    if tid = "" then ([], false)
    else if dryRun then ([], true)
    else (["http://localhost:9222/json/close/" ++ tid], respond tid)

/-- The internal-page skip of the dispatch loop in `clean_chrome_tabs`
(note the `'Unknown'` default the loop uses for a missing URL). -/
def skipTab (tab : Tab) : Bool :=
  let url := tab.url.getD "Unknown"
  (pyStarts url "chrome-extension://" || pyStarts url "chrome://") &&
    !pyStarts url "chrome://newtab"

/-- The per-tab decision of the dispatch loop: each predicate is guarded
by the mode flags and by `should_close` still being false. -/
def tabDecision (jo eo co : Bool) (re : ReOracle) (config : Config)
    (tab : Tab) : Bool × String :=
  let d1 : Bool × String :=
    if !jo && !co then
      let e := isEmptyTab tab
      if e.1 then (true, e.2) else (false, "")
    else (false, "")
  let d2 : Bool × String :=
    if !eo && !co && !d1.1 then
      let j := isJenkinsTab tab
      if j.1 then (true, j.2) else d1
    else d1
  if !eo && !jo && !d2.1 then
    let c := isConfigurableSiteTab re tab config
    if c.1 then (true, c.2) else d2
  else d2

/-- The collection phase of `clean_chrome_tabs`: build `tabs_to_close` in
input order, skipping internal pages. -/
def collectTabs (jo eo co : Bool) (re : ReOracle) (config : Config) :
    List Tab → List (Tab × String)
  | [] => []
  | t :: rest =>
    if skipTab t then collectTabs jo eo co re config rest
    else
      let d := tabDecision jo eo co re config t
      if d.1 then (t, d.2) :: collectTabs jo eo co re config rest
      else collectTabs jo eo co re config rest

/-- The closing phase of `clean_chrome_tabs`: for each collected pair,
emit a report line (truncated title, truncated URL, reason), attempt the
close, and count successes.  Returns (report lines, close-request URLs,
`closed_count`). -/
def runClose (respond : String → Bool) (dryRun : Bool) :
    List (Tab × String) → List (String × String × String) × List String × Nat
  | [] => ([], [], 0)
  | (t, r) :: rest =>
    let rep := (display (t.title.getD "Unknown") 60,
                display (t.url.getD "Unknown") 80, r)
    let c := closeTab respond t dryRun
    let acc := runClose respond dryRun rest
    (rep :: acc.1, c.1 ++ acc.2.1, (if c.2 then 1 else 0) + acc.2.2)

/-- `sum([jenkins_only, empty_only, configurable_only])` from `main`. -/
def flagCount (jo eo co : Bool) : Nat :=
  (cond jo 1 0) + (cond eo 1 0) + (cond co 1 0)

/-- Embedding of `main` after argument parsing, as a network trace: the
flag validation runs first; only when it passes does the program fetch
the tab list (the first network call) and run the clean pipeline.
Returns (network-request URLs in order, exit code if the program exits
through `sys.exit`). -/
def mainNet (jo eo co dryRun : Bool) (tabs : List Tab) (config : Config)
    (re : ReOracle) (respond : String → Bool) :
    List String × Option Nat :=
  if flagCount jo eo co > 1 then ([], some 1)
  else
    let pairs := collectTabs jo eo co re config tabs
    let res := runClose respond dryRun pairs
    ("http://localhost:9222/json" :: res.2.1, none)

/-! Spec-side characterisation of the dispatch loop, written from the
spec's words ("evaluate predicates in the fixed priority order, stopping
at the first positive decision; collect (tab, reason) pairs for all
positive decisions, preserving original tab order"), to be compared with
`collectTabs`. -/

/-- First positive decision in a list of decisions, `(false, "")` when
none is positive. -/
def firstPos : List (Bool × String) → Bool × String
  | [] => (false, "")
  | d :: rest => if d.1 then d else firstPos rest

/-- The predicates enabled for a run mode, in the spec's fixed priority
order empty, then CI, then configured-site. -/
def modePreds (jo eo co : Bool) (re : ReOracle) (config : Config) :
    List (Tab → Bool × String) :=
  if eo then [isEmptyTab]
  else if jo then [isJenkinsTab]
  else if co then [fun t => isConfigurableSiteTab re t config]
  else [isEmptyTab, isJenkinsTab, fun t => isConfigurableSiteTab re t config]

/-- The spec's per-tab decision: first positive decision among the
enabled predicates in priority order. -/
def specDecision (jo eo co : Bool) (re : ReOracle) (config : Config)
    (tab : Tab) : Bool × String :=
  firstPos ((modePreds jo eo co re config).map (fun f => f tab))

/-- The spec's collection: one optional pair per non-skipped tab, in
input order. -/
def specCollect (jo eo co : Bool) (re : ReOracle) (config : Config)
    (tabs : List Tab) : List (Tab × String) :=
  tabs.filterMap (fun t =>
    if skipTab t then none
    else
      let d := specDecision jo eo co re config t
      if d.1 then some (t, d.2) else none)

/-- A tab id that Python's `if not tab_id:` treats as present: a `some`
that is not the empty string. -/
def validTabId (t : Tab) : Bool :=
  match t.id with
  | none => false
  | some s => !(s == "")

/-! Helper lemmas. -/

theorem isPrefOf_map (f : Char → Char) :
    ∀ p l : List Char, isPrefOf p l = true →
      isPrefOf (p.map f) (l.map f) = true := by
  intro p
  induction p with
  | nil => intro l _; simp [isPrefOf]
  | cons a as ih =>
    intro l h
    cases l with
    | nil => simp [isPrefOf] at h
    | cons b bs =>
      simp only [isPrefOf, Bool.and_eq_true, beq_iff_eq] at h
      simp only [List.map, isPrefOf, Bool.and_eq_true, beq_iff_eq]
      exact ⟨by rw [h.1], ih bs h.2⟩

theorem hasSub_map (f : Char → Char) :
    ∀ p l : List Char, hasSub p l = true →
      hasSub (p.map f) (l.map f) = true := by
  intro p l
  induction l with
  | nil =>
    intro h
    simp only [hasSub] at h ⊢
    cases p with
    | nil => simp [isPrefOf]
    | cons a as => simp [isPrefOf] at h
  | cons b bs ih =>
    intro h
    simp only [hasSub, Bool.or_eq_true] at h
    rcases h with h | h
    · have := isPrefOf_map f p (b :: bs) h
      simp only [List.map, hasSub, Bool.or_eq_true]
      exact Or.inl this
    · simp only [List.map, hasSub, Bool.or_eq_true]
      exact Or.inr (ih h)

theorem pyIn_upper (p s : String) (h : pyIn p s = true) :
    pyIn (pyUpper p) (pyUpper s) = true := by
  simpa [pyIn, pyUpper] using hasSub_map Char.toUpper p.toList s.toList h

theorem tabDecision_eq_spec (jo eo co : Bool) (re : ReOracle)
    (config : Config) (t : Tab) (h : flagCount jo eo co ≤ 1) :
    tabDecision jo eo co re config t = specDecision jo eo co re config t := by
  rcases h1 : isEmptyTab t with ⟨b1, s1⟩
  rcases h2 : isJenkinsTab t with ⟨b2, s2⟩
  rcases h3 : isConfigurableSiteTab re t config with ⟨b3, s3⟩
  cases jo <;> cases eo <;> cases co <;>
    simp only [flagCount, cond_true, cond_false] at h <;>
    first
      | omega
      | (cases b1 <;> cases b2 <;> cases b3 <;>
          simp [tabDecision, specDecision, modePreds, firstPos, h1, h2, h3])

theorem collectTabs_eq_spec (jo eo co : Bool) (re : ReOracle)
    (config : Config) (tabs : List Tab) (h : flagCount jo eo co ≤ 1) :
    collectTabs jo eo co re config tabs = specCollect jo eo co re config tabs := by
  induction tabs with
  | nil => simp [collectTabs, specCollect]
  | cons t rest ih =>
    simp only [collectTabs, specCollect, List.filterMap]
    rw [tabDecision_eq_spec jo eo co re config t h] at *
    by_cases hs : skipTab t = true
    · simp only [hs, if_true]
      simpa [specCollect] using ih
    · simp only [Bool.not_eq_true] at hs
      simp only [hs]
      rcases hd : specDecision jo eo co re config t with ⟨b, s⟩
      cases b <;> simp_all [specCollect, collectTabs]

theorem collectTabs_sublist (jo eo co : Bool) (re : ReOracle)
    (config : Config) (tabs : List Tab) :
    List.Sublist ((collectTabs jo eo co re config tabs).map Prod.fst) tabs := by
  induction tabs with
  | nil => simp [collectTabs]
  | cons t rest ih =>
    simp only [collectTabs]
    by_cases hs : skipTab t = true
    · simp only [hs, if_true]
      exact ih.cons t
    · simp only [Bool.not_eq_true] at hs
      simp only [hs, Bool.false_eq_true, if_false]
      by_cases hd : (tabDecision jo eo co re config t).1 = true
      · simp only [hd, if_true, List.map]
        exact ih.cons₂ t
      · simp only [Bool.not_eq_true] at hd
        simp only [hd, Bool.false_eq_true, if_false]
        exact ih.cons t

theorem isEmptyTab_fst (t : Tab) :
    (isEmptyTab t).1 =
      (emptyUrls.any (fun e => pyStarts (t.url.getD "") e) ||
        errorIndicators.any (fun i => pyIn (pyLower i) (pyLower (t.title.getD ""))) ||
        stripEmpty (t.title.getD "")) := by
  simp only [isEmptyTab]
  cases ha : emptyUrls.any (fun e => pyStarts (t.url.getD "") e) <;>
    cases hb : errorIndicators.any
        (fun i => pyIn (pyLower i) (pyLower (t.title.getD ""))) <;>
      cases hc : stripEmpty (t.title.getD "") <;> simp [ha, hb, hc]

/-- Claim C1 (counterexample): a tab whose URL is `chrome://new-tab-page/`
satisfies the empty-tab predicate (so by the claim it should still be
evaluated and collected), yet the dispatch loop collects nothing from it:
only the `chrome://newtab` prefix is exempt from the internal-scheme skip. -/
theorem C1_cex :
    (isEmptyTab ⟨some "1", some "chrome://new-tab-page/", some "Some Title"⟩).1 = true ∧
    collectTabs false false false (fun _ => none) ⟨[]⟩
        [⟨some "1", some "chrome://new-tab-page/", some "Some Title"⟩] = [] := by
  constructor
  · rfl
  · rfl

/-- Claim C1 (amended): the dispatch loop skips every tab whose URL starts
with `chrome-extension://` or `chrome://` unless the URL starts with
`chrome://newtab`; a `chrome://newtab`-prefixed URL is still evaluated by
the mode's predicates. -/
theorem C1_skip_internal :
    (∀ (jo eo co : Bool) (re : ReOracle) (config : Config) (t : Tab)
        (rest : List Tab),
        (pyStarts (t.url.getD "Unknown") "chrome-extension://" = true ∨
          pyStarts (t.url.getD "Unknown") "chrome://" = true) →
        pyStarts (t.url.getD "Unknown") "chrome://newtab" = false →
        collectTabs jo eo co re config (t :: rest) =
          collectTabs jo eo co re config rest) ∧
    (∀ (jo eo co : Bool) (re : ReOracle) (config : Config) (t : Tab)
        (rest : List Tab),
        pyStarts (t.url.getD "Unknown") "chrome://newtab" = true →
        collectTabs jo eo co re config (t :: rest) =
          (if (tabDecision jo eo co re config t).1 then
            (t, (tabDecision jo eo co re config t).2) ::
              collectTabs jo eo co re config rest
          else collectTabs jo eo co re config rest)) := by
  constructor
  · intro jo eo co re config t rest h1 h2
    have hs : skipTab t = true := by
      rcases h1 with h | h <;> simp [skipTab, h, h2]
    simp [collectTabs, hs]
  · intro jo eo co re config t rest h
    have hs : skipTab t = false := by
      simp [skipTab, h]
    simp [collectTabs, hs]

/-- Witness for `C1_skip_internal` at concrete tabs. -/
theorem C1_skip_internal_witness :
    collectTabs false false false (fun _ => none) ⟨[]⟩
        [⟨some "1", some "chrome-extension://abc/page", some "T"⟩] = [] ∧
    collectTabs false false false (fun _ => none) ⟨[]⟩
        [⟨some "2", some "chrome://newtab/", some "T"⟩] =
      [(⟨some "2", some "chrome://newtab/", some "T"⟩,
        "New tab page: chrome://newtab/")] := by
  constructor
  · exact (C1_skip_internal.1 false false false (fun _ => none) ⟨[]⟩
      ⟨some "1", some "chrome-extension://abc/page", some "T"⟩ []
      (Or.inl (by decide)) (by decide)).trans rfl
  · exact (C1_skip_internal.2 false false false (fun _ => none) ⟨[]⟩
      ⟨some "2", some "chrome://newtab/", some "T"⟩ []
      (by decide)).trans (by decide)

/-- Claim C2: under any valid run mode (at most one exclusive flag), the
dispatch loop equals its spec-side description: per tab the first
positive decision among the mode's enabled predicates in the fixed order
empty, CI, configured-site, collected one pair at most per tab in input
order (the projection to tabs is a sublist of the input). -/
theorem C2_mode_dispatch :
    ∀ (jo eo co : Bool) (re : ReOracle) (config : Config) (tabs : List Tab),
      flagCount jo eo co ≤ 1 →
      collectTabs jo eo co re config tabs = specCollect jo eo co re config tabs ∧
      List.Sublist ((collectTabs jo eo co re config tabs).map Prod.fst) tabs :=
  fun jo eo co re config tabs h =>
    ⟨collectTabs_eq_spec jo eo co re config tabs h,
      collectTabs_sublist jo eo co re config tabs⟩

/-- Witness for `C2_mode_dispatch` in empty-only mode on a concrete list. -/
theorem C2_mode_dispatch_witness :
    flagCount false true false ≤ 1 ∧
    (collectTabs false true false (fun _ => none) ⟨[]⟩
        [⟨some "1", some "about:blank", some "t"⟩] =
      specCollect false true false (fun _ => none) ⟨[]⟩
        [⟨some "1", some "about:blank", some "t"⟩] ∧
      List.Sublist
        ((collectTabs false true false (fun _ => none) ⟨[]⟩
            [⟨some "1", some "about:blank", some "t"⟩]).map Prod.fst)
        [⟨some "1", some "about:blank", some "t"⟩]) :=
  ⟨by decide,
    C2_mode_dispatch false true false (fun _ => none) ⟨[]⟩
      [⟨some "1", some "about:blank", some "t"⟩] (by decide)⟩

/-- Claim C3: the empty-tab predicate closes a tab exactly when the URL
starts with one of the fixed new-tab/blank URLs, or the title
case-insensitively contains one of the fixed failure indicators, or the
trimmed title is empty; in particular URL `chrome://newtab/` or
`about:blank`, or a title containing `err_` case-insensitively, closes. -/
theorem C3_empty_tab_predicate :
    (∀ t : Tab, (isEmptyTab t).1 =
      (emptyUrls.any (fun e => pyStarts (t.url.getD "") e) ||
        errorIndicators.any (fun i => pyIn (pyLower i) (pyLower (t.title.getD ""))) ||
        stripEmpty (t.title.getD ""))) ∧
    (∀ t : Tab, t.url = some "chrome://newtab/" → (isEmptyTab t).1 = true) ∧
    (∀ t : Tab, t.url = some "about:blank" → (isEmptyTab t).1 = true) ∧
    (∀ t : Tab, pyIn "err_" (pyLower (t.title.getD "")) = true →
      (isEmptyTab t).1 = true) := by
  refine ⟨isEmptyTab_fst, ?_, ?_, ?_⟩
  · intro t h
    rw [isEmptyTab_fst, h]
    have he : emptyUrls.any
        (fun e => pyStarts ((some "chrome://newtab/").getD "") e) = true := by
      decide
    rw [he, Bool.true_or, Bool.true_or]
  · intro t h
    rw [isEmptyTab_fst, h]
    have he : emptyUrls.any
        (fun e => pyStarts ((some "about:blank").getD "") e) = true := by
      decide
    rw [he, Bool.true_or, Bool.true_or]
  · intro t h
    rw [isEmptyTab_fst]
    have h27 : pyIn (pyLower "ERR_") (pyLower (t.title.getD "")) = true := by
      have e : pyLower "ERR_" = "err_" := rfl
      rw [e]; exact h
    have hind : errorIndicators.any
        (fun i => pyIn (pyLower i) (pyLower (t.title.getD ""))) = true := by
      simp only [errorIndicators, List.any_cons, List.any_nil]
      simp [h27]
    simp [hind]

/-- Witness for `C3_empty_tab_predicate` at concrete tabs. -/
theorem C3_empty_tab_predicate_witness :
    (isEmptyTab ⟨none, some "chrome://newtab/", some "x"⟩).1 = true ∧
    (isEmptyTab ⟨none, some "about:blank", some "x"⟩).1 = true ∧
    (isEmptyTab ⟨none, some "http://u/", some "ERR_CONNECTION_RESET"⟩).1 = true :=
  ⟨C3_empty_tab_predicate.2.1 ⟨none, some "chrome://newtab/", some "x"⟩ rfl,
    C3_empty_tab_predicate.2.2.1 ⟨none, some "about:blank", some "x"⟩ rfl,
    C3_empty_tab_predicate.2.2.2 ⟨none, some "http://u/", some "ERR_CONNECTION_RESET"⟩
      (by decide)⟩

/-- Claim C4 (counterexample): a tab whose URL contains `jenkins.` and
whose title contains `SUCCESS` need not get the completed-build reason:
when the URL also contains a console fragment, the console-log reason
wins, refuting the claim's unconditional completed-build example. -/
theorem C4_cex :
    pyIn "jenkins." "https://jenkins.example.com/console" = true ∧
    pyIn "SUCCESS" "SUCCESS" = true ∧
    isJenkinsTab ⟨some "1", some "https://jenkins.example.com/console", some "SUCCESS"⟩ =
      (true, "Jenkins console log: https://jenkins.example.com/console") ∧
    (isJenkinsTab ⟨some "1", some "https://jenkins.example.com/console", some "SUCCESS"⟩).2 ≠
      "Completed Jenkins build: SUCCESS" := by
  refine ⟨rfl, rfl, rfl, ?_⟩
  decide

/-- Claim C4 (amended): the CI predicate closes a tab exactly when the URL
contains a CI host-name fragment; the reason is the console-log reason
when the URL contains a console/log fragment, otherwise the
completed-build reason when the uppercased title contains a completion
keyword, otherwise the generic CI-page reason; so a tab whose URL
contains `jenkins.` with no console/log fragment and whose title contains
`SUCCESS` gets the completed-build reason, and the concrete console URL
gets the console-log reason. -/
theorem C4_ci_predicate :
    (∀ t : Tab, (isJenkinsTab t).1 =
      jenkinsDomains.any (fun d => pyIn d (t.url.getD ""))) ∧
    (∀ t : Tab, jenkinsDomains.any (fun d => pyIn d (t.url.getD "")) = true →
      consoles.any (fun p => pyIn p (t.url.getD "")) = true →
      isJenkinsTab t = (true, "Jenkins console log: " ++ t.url.getD "")) ∧
    (∀ t : Tab, jenkinsDomains.any (fun d => pyIn d (t.url.getD "")) = true →
      consoles.any (fun p => pyIn p (t.url.getD "")) = false →
      completions.any (fun i => pyIn i (pyUpper (t.title.getD ""))) = true →
      isJenkinsTab t = (true, "Completed Jenkins build: " ++ t.title.getD "")) ∧
    (∀ t : Tab, jenkinsDomains.any (fun d => pyIn d (t.url.getD "")) = true →
      consoles.any (fun p => pyIn p (t.url.getD "")) = false →
      completions.any (fun i => pyIn i (pyUpper (t.title.getD ""))) = false →
      isJenkinsTab t = (true, "Jenkins page: " ++ t.url.getD "")) ∧
    (∀ t : Tab, pyIn "jenkins." (t.url.getD "") = true →
      pyIn "SUCCESS" (t.title.getD "") = true →
      consoles.any (fun p => pyIn p (t.url.getD "")) = false →
      isJenkinsTab t = (true, "Completed Jenkins build: " ++ t.title.getD "")) ∧
    (∀ idv ttl : Option String,
      isJenkinsTab ⟨idv, some "https://jenkins.example.com/job/x/123/console", ttl⟩ =
        (true, "Jenkins console log: https://jenkins.example.com/job/x/123/console")) := by
  have part1 : ∀ t : Tab, (isJenkinsTab t).1 =
      jenkinsDomains.any (fun d => pyIn d (t.url.getD "")) := by
    intro t
    simp only [isJenkinsTab]
    cases hd : jenkinsDomains.any (fun d => pyIn d (t.url.getD "")) <;>
      cases hc : consoles.any (fun p => pyIn p (t.url.getD "")) <;>
        cases hk : completions.any (fun i => pyIn i (pyUpper (t.title.getD ""))) <;>
          simp [hd, hc, hk]
  have part2 : ∀ t : Tab,
      jenkinsDomains.any (fun d => pyIn d (t.url.getD "")) = true →
      consoles.any (fun p => pyIn p (t.url.getD "")) = true →
      isJenkinsTab t = (true, "Jenkins console log: " ++ t.url.getD "") := by
    intro t h1 h2
    simp [isJenkinsTab, h1, h2]
  have part3 : ∀ t : Tab,
      jenkinsDomains.any (fun d => pyIn d (t.url.getD "")) = true →
      consoles.any (fun p => pyIn p (t.url.getD "")) = false →
      completions.any (fun i => pyIn i (pyUpper (t.title.getD ""))) = true →
      isJenkinsTab t = (true, "Completed Jenkins build: " ++ t.title.getD "") := by
    intro t h1 h2 h3
    simp [isJenkinsTab, h1, h2, h3]
  have part4 : ∀ t : Tab,
      jenkinsDomains.any (fun d => pyIn d (t.url.getD "")) = true →
      consoles.any (fun p => pyIn p (t.url.getD "")) = false →
      completions.any (fun i => pyIn i (pyUpper (t.title.getD ""))) = false →
      isJenkinsTab t = (true, "Jenkins page: " ++ t.url.getD "") := by
    intro t h1 h2 h3
    simp [isJenkinsTab, h1, h2, h3]
  have part5 : ∀ t : Tab, pyIn "jenkins." (t.url.getD "") = true →
      pyIn "SUCCESS" (t.title.getD "") = true →
      consoles.any (fun p => pyIn p (t.url.getD "")) = false →
      isJenkinsTab t = (true, "Completed Jenkins build: " ++ t.title.getD "") := by
    intro t h1 h2 hc
    have hd : jenkinsDomains.any (fun d => pyIn d (t.url.getD "")) = true := by
      simp only [jenkinsDomains, List.any_cons, List.any_nil]
      simp [h1]
    have hk : completions.any (fun i => pyIn i (pyUpper (t.title.getD ""))) = true := by
      have hu := pyIn_upper "SUCCESS" (t.title.getD "") h2
      have e : pyUpper "SUCCESS" = "SUCCESS" := rfl
      rw [e] at hu
      simp only [completions, List.any_cons, List.any_nil]
      simp [hu]
    exact part3 t hd hc hk
  refine ⟨part1, part2, part3, part4, part5, ?_⟩
  intro idv ttl
  exact (part2 ⟨idv, some "https://jenkins.example.com/job/x/123/console", ttl⟩
    rfl rfl).trans rfl

/-- Witness for `C4_ci_predicate` at concrete tabs. -/
theorem C4_ci_predicate_witness :
    pyIn "jenkins." "https://jenkins.example.com/job/x/5" = true ∧
    pyIn "SUCCESS" "Build SUCCESS" = true ∧
    consoles.any (fun p => pyIn p "https://jenkins.example.com/job/x/5") = false ∧
    isJenkinsTab ⟨some "1", some "https://jenkins.example.com/job/x/5", some "Build SUCCESS"⟩ =
      (true, "Completed Jenkins build: Build SUCCESS") :=
  ⟨by decide, by decide, by decide,
    (C4_ci_predicate.2.2.2.2.1
      ⟨some "1", some "https://jenkins.example.com/job/x/5", some "Build SUCCESS"⟩
      (by decide) (by decide) (by decide)).trans (by decide)⟩

/-- Claim C5: with a single enabled `domain_exact` rule for
`example.com`, the configured-site predicate closes a tab exactly when
the lower-cased netloc parsed from its URL equals `example.com`;
`https://example.com/path` matches, `https://www.example.com/path` does
not. -/
theorem C5_domain_exact :
    (∀ (re : ReOracle) (name : Option String) (en : Option Bool) (t : Tab),
        en.getD true = true →
        (isConfigurableSiteTab re t
            ⟨[⟨name, ["example.com"], some "domain_exact", en⟩]⟩).1 =
          (pyLower (netlocOf (t.url.getD "")) == "example.com")) ∧
    (isConfigurableSiteTab (fun _ => none) ⟨none, some "https://example.com/path", none⟩
        ⟨[⟨none, ["example.com"], some "domain_exact", some true⟩]⟩).1 = true ∧
    (isConfigurableSiteTab (fun _ => none) ⟨none, some "https://www.example.com/path", none⟩
        ⟨[⟨none, ["example.com"], some "domain_exact", some true⟩]⟩).1 = false := by
  refine ⟨?_, by decide, by decide⟩
  intro re name en t hen
  have e1 : ("domain_exact" == "domain_contains") = false := rfl
  have e2 : ("domain_exact" == "domain_exact") = true := rfl
  have e3 : pyLower "example.com" = "example.com" := rfl
  simp only [isConfigurableSiteTab, sitesGo, hen, Option.getD_some,
    patMatch, matchPattern, e1, e2, e3, Bool.false_eq_true, if_false, if_true,
    Bool.or_false]
  cases hb : (pyLower (netlocOf (t.url.getD "")) == "example.com") <;> simp [hb]

/-- Witness for `C5_domain_exact` on a URL with an explicit port. -/
theorem C5_domain_exact_witness :
    (some true : Option Bool).getD true = true ∧
    (isConfigurableSiteTab (fun _ => none)
        ⟨none, some "https://example.com:8443/p", none⟩
        ⟨[⟨none, ["example.com"], some "domain_exact", some true⟩]⟩).1 =
      (pyLower (netlocOf ((⟨none, some "https://example.com:8443/p", none⟩ : Tab).url.getD "")) ==
        "example.com") :=
  ⟨rfl, C5_domain_exact.1 (fun _ => none) none (some true)
    ⟨none, some "https://example.com:8443/p", none⟩ rfl⟩

/-- Claim C6 (counterexample): in dry-run mode the summary count can be
strictly below the number of collected pairs: a collected tab with no id
is reported but `_close_tab` returns false even under dry run. -/
theorem C6_cex :
    (runClose (fun _ => true) true
        (collectTabs false false false (fun _ => none) ⟨[]⟩
          [⟨none, some "about:blank", some "t"⟩])).2.2 = 0 ∧
    (collectTabs false false false (fun _ => none) ⟨[]⟩
        [⟨none, some "about:blank", some "t"⟩]).length = 1 :=
  ⟨rfl, rfl⟩

/-- Claim C6 (amended): in dry-run mode no close request is issued, and
the summary count equals the number of collected pairs whose tab has a
present, non-empty id — which is also the count a non-dry-run run reaches
when every issued close request returns HTTP 200. -/
theorem C6_dry_run :
    ∀ (respond : String → Bool) (pairs : List (Tab × String)),
      (runClose respond true pairs).2.1 = [] ∧
      (runClose respond true pairs).2.2 =
        (pairs.filter (fun p => validTabId p.1)).length ∧
      (runClose respond true pairs).2.2 = (runClose (fun _ => true) false pairs).2.2 := by
  intro respond pairs
  induction pairs with
  | nil => exact ⟨rfl, rfl, rfl⟩
  | cons p rest ih =>
    obtain ⟨t, r⟩ := p
    obtain ⟨ih1, ih2, ih3⟩ := ih
    rcases ht : t.id with _ | tid
    · refine ⟨?_, ?_, ?_⟩
      · simp [runClose, closeTab, ht, ih1]
      · simp [runClose, closeTab, ht, ih2, validTabId, List.filter_cons]
      · simp [runClose, closeTab, ht, ih3]
    · by_cases he : tid = ""
      · subst he
        refine ⟨?_, ?_, ?_⟩
        · simp [runClose, closeTab, ht, ih1]
        · simp [runClose, closeTab, ht, ih2, validTabId, List.filter_cons]
        · simp [runClose, closeTab, ht, ih3]
      · refine ⟨?_, ?_, ?_⟩
        · simp [runClose, closeTab, ht, he, ih1]
        · simp [runClose, closeTab, ht, he, ih2, validTabId, List.filter_cons,
            Nat.add_comm]
        · simp [runClose, closeTab, ht, he, ih3]

/-- Claim C7: with more than one exclusive mode flag set, the program
exits with status 1 before issuing any network request; in particular
`--jenkins-only --empty-only` is such a combination. -/
theorem C7_conflicting_flags :
    (∀ (jo eo co dryRun : Bool) (tabs : List Tab) (config : Config)
        (re : ReOracle) (respond : String → Bool),
        1 < flagCount jo eo co →
        mainNet jo eo co dryRun tabs config re respond = ([], some 1)) ∧
    (∀ co : Bool, 1 < flagCount true true co) := by
  constructor
  · intro jo eo co dryRun tabs config re respond h
    simp [mainNet, h]
  · intro co
    cases co <;> simp [flagCount]

/-- Witness for `C7_conflicting_flags` with both flags set. -/
theorem C7_conflicting_flags_witness :
    1 < flagCount true true false ∧
    mainNet true true false false [] ⟨[]⟩ (fun _ => none) (fun _ => true) =
      ([], some 1) :=
  ⟨by decide,
    C7_conflicting_flags.1 true true false false [] ⟨[]⟩ (fun _ => none)
      (fun _ => true) (by decide)⟩

theorem matchPattern_regex_none (re : ReOracle) (p url : String)
    (h : re p = none) : matchPattern re "url_regex" p url = false := by
  have e1 : ("url_regex" == "domain_contains") = false := rfl
  have e2 : ("url_regex" == "domain_exact") = false := rfl
  have e3 : ("url_regex" == "url_contains") = false := rfl
  have e4 : ("url_regex" == "url_regex") = true := rfl
  simp [matchPattern, e1, e2, e3, e4, h]

theorem patMatch_erase (re : ReOracle) (p url : String) (h : re p = none) :
    ∀ a b : List String,
      patMatch re "url_regex" url (a ++ p :: b) =
        patMatch re "url_regex" url (a ++ b) := by
  intro a b
  induction a with
  | nil => simp [patMatch, matchPattern_regex_none re p url h]
  | cons q qs ih => simp [patMatch, ih]

/-- Claim C8: an invalid regex pattern in a `url_regex` rule is a silent
non-match for that pattern only: deleting it from the rule's pattern list
changes nothing, so the remaining patterns and rules are evaluated
normally and no error is raised (the embedded predicate is total). -/
theorem C8_invalid_regex :
    ∀ (re : ReOracle) (p : String), re p = none →
      ∀ (t : Tab) (pre post : List SiteRule) (name : Option String)
        (en : Option Bool) (a b : List String),
        isConfigurableSiteTab re t
            ⟨pre ++ ⟨name, a ++ p :: b, some "url_regex", en⟩ :: post⟩ =
          isConfigurableSiteTab re t
            ⟨pre ++ ⟨name, a ++ b, some "url_regex", en⟩ :: post⟩ := by
  intro re p h t pre post name en a b
  simp only [isConfigurableSiteTab]
  induction pre with
  | nil =>
    simp only [List.nil_append, sitesGo, Option.getD_some]
    rw [patMatch_erase re p (t.url.getD "") h a b]
  | cons s ss ih =>
    simp only [List.cons_append, sitesGo, List.append_eq]
    rw [ih]

/-- Witness for `C8_invalid_regex` deleting the invalid pattern `[`. -/
theorem C8_invalid_regex_witness :
    (fun _ => (none : Option (String → Bool))) "[" = none ∧
    isConfigurableSiteTab (fun _ => none) ⟨none, some "http://x/", none⟩
        ⟨[⟨none, ["[", "x"], some "url_regex", none⟩]⟩ =
      isConfigurableSiteTab (fun _ => none) ⟨none, some "http://x/", none⟩
        ⟨[⟨none, ["x"], some "url_regex", none⟩]⟩ :=
  ⟨rfl, C8_invalid_regex (fun _ => none) "[" rfl ⟨none, some "http://x/", none⟩
    [] [] none none [] ["x"]⟩

/-- Claim C9: `domain_contains` and `url_contains` are extensionally the
same match type: both test substring containment of the pattern in the
full URL, at the single-pattern level and for a whole rule. -/
theorem C9_contains_equiv :
    (∀ (re : ReOracle) (p url : String),
        matchPattern re "domain_contains" p url =
          matchPattern re "url_contains" p url) ∧
    (∀ (re : ReOracle) (t : Tab) (name : Option String) (en : Option Bool)
        (pats : List String),
        isConfigurableSiteTab re t ⟨[⟨name, pats, some "domain_contains", en⟩]⟩ =
          isConfigurableSiteTab re t ⟨[⟨name, pats, some "url_contains", en⟩]⟩) := by
  have hm : ∀ (re : ReOracle) (p url : String),
      matchPattern re "domain_contains" p url =
        matchPattern re "url_contains" p url := by
    intro re p url
    have e1 : ("domain_contains" == "domain_contains") = true := rfl
    have e2 : ("url_contains" == "domain_contains") = false := rfl
    have e3 : ("url_contains" == "domain_exact") = false := rfl
    have e4 : ("url_contains" == "url_contains") = true := rfl
    simp [matchPattern, e1, e2, e3, e4]
  refine ⟨hm, ?_⟩
  intro re t name en pats
  have hp : ∀ l, patMatch re "domain_contains" (t.url.getD "") l =
      patMatch re "url_contains" (t.url.getD "") l := by
    intro l
    induction l with
    | nil => rfl
    | cons q qs ih => simp [patMatch, hm, ih]
  simp only [isConfigurableSiteTab, sitesGo, Option.getD_some, hp]

/-- Claim C10: a collected tab with a missing or empty id fails the close
operation even in dry-run mode, so it still produces its per-tab report
line but contributes nothing to the summary count, in either mode. -/
theorem C10_missing_id :
    ∀ (respond : String → Bool) (dryRun : Bool) (t : Tab) (r : String)
      (pairs : List (Tab × String)),
      t.id = none ∨ t.id = some "" →
      closeTab respond t dryRun = ([], false) ∧
      (runClose respond dryRun ((t, r) :: pairs)).2.2 =
        (runClose respond dryRun pairs).2.2 ∧
      (runClose respond dryRun ((t, r) :: pairs)).1 =
        (display (t.title.getD "Unknown") 60, display (t.url.getD "Unknown") 80, r) ::
          (runClose respond dryRun pairs).1 := by
  intro respond dryRun t r pairs h
  have hc : closeTab respond t dryRun = ([], false) := by
    rcases h with h | h <;> simp [closeTab, h]
  refine ⟨hc, ?_, ?_⟩ <;> simp [runClose, hc]

/-- Witness for `C10_missing_id` at a tab with no id. -/
theorem C10_missing_id_witness :
    ((⟨none, some "http://u/", some "t"⟩ : Tab).id = none ∨
      (⟨none, some "http://u/", some "t"⟩ : Tab).id = some "") ∧
    closeTab (fun _ => true) ⟨none, some "http://u/", some "t"⟩ true = ([], false) :=
  ⟨Or.inl rfl,
    (C10_missing_id (fun _ => true) true ⟨none, some "http://u/", some "t"⟩ "r" []
      (Or.inl rfl)).1⟩

end TabCleaner
